import Mathlib

/-!
Verification of the lunar lander simulation core.

Shallow embedding, over the rationals, of the core of the lunar lander
Monte Carlo simulator: the single-trajectory simulator, the batch runner and
summarizer, the closed-form physics estimator and the candidate-ranking
suggestion engine of src/app.py, together with the divergent summarize and
rank_suggestions variants of src/web/app.py that some claims also cite.

Modelling conventions:
- Python floats are modelled by the rationals; machine rounding is ignored,
  but the round builtin (round half to even) is modelled exactly by rhe
  and pyRound below.
- The numpy generator is modelled by an explicit stream of unit draws
  (a function from draw index to rational) plus a cursor; normal(0, s)
  returns s times the next unit draw. The stream for a given seed comes
  from an ambient function g from seeds to streams, kept abstract.
- Fallible operations carry Except String: a float division raises
  ZeroDivisionError on a zero denominator, math.sqrt raises ValueError on a
  negative argument, and indexing a missing pandas column raises KeyError.
  Divisions whose denominator is positive by an explicit guard in the code
  are modelled with plain rational division.
- math.sqrt on a nonnegative argument is modelled by an abstract parameter
  sq, since exact square roots are not rational; no proved claim depends on
  its values. The pandas std(ddof := 1) call is modelled by the quantity
  under its square root (the Bessel-corrected sample variance): the square
  root and the final display rounding are omitted, which preserves being
  zero, being None and being NaN-free, the only properties claimed of it.
-/

deriving instance DecidableEq for Except

namespace Lander

/-- Round half to even on the rationals, the semantics of the Python round
builtin on an exact value: ties (fractional part one half) go to the even
integer, every other value goes to the nearest integer. -/
def rhe (x : ℚ) : ℤ :=
  if x - ⌊x⌋ = (1 : ℚ) / 2 then (if Even ⌊x⌋ then ⌊x⌋ else ⌊x⌋ + 1) else round x

/-- Python round(x, nd): round half to even at nd decimal digits. -/
def pyRound (nd : ℕ) (x : ℚ) : ℚ :=
  (rhe (x * 10 ^ nd) : ℚ) / 10 ^ nd

/-- Python int() on a float: truncation toward zero. -/
def pyInt (x : ℚ) : ℤ :=
  if 0 ≤ x then ⌊x⌋ else ⌈x⌉

/-- Checked float division: Python raises ZeroDivisionError on a zero
denominator. -/
def qdiv (a b : ℚ) : Except String ℚ :=
  if b = 0 then .error "ZeroDivisionError: float division by zero" else .ok (a / b)

/-- np.clip(x, lo, hi) is min(max(x, lo), hi). -/
def npClip (x lo hi : ℚ) : ℚ :=
  min (max x lo) hi

/-- Fixed integration step of src/app.py (SIM_DT = 0.1). -/
def SIM_DT : ℚ := 1 / 10

/-- Safety-margin multiplier of src/app.py (SIGMA_MARGIN = 3.0). -/
def SIGMA_MARGIN : ℚ := 3

/-- Terminal reason of one simulated descent. -/
inductive Reason where
  | safe
  | too_fast
  | out_of_fuel
  | time_limit
deriving DecidableEq

/-- One outcome record of the simulator, without the per-step trace:
exactly the dict returned by simulate_one in src/app.py. -/
structure Outcome where
  landed : Bool
  safe : Bool
  landing_speed_mps : Option ℚ
  fuel_left_kg : ℚ
  time_s : ℚ
  reason : Reason
deriving DecidableEq

/-- One entry of the per-step trace: (time, altitude, clamped fuel,
velocity, throttle). -/
abbrev TraceEntry : Type := ℚ × ℚ × ℚ × ℚ × ℚ

/-- Outcome record together with the per-step trace, as returned by
simulate_one_with_trace in src/app.py. -/
structure OutcomeTr extends Outcome where
  trace : List TraceEntry
deriving DecidableEq

/-- Explicit model of a numpy Generator: a stream of unit normal draws and
a cursor into it. -/
structure Rng where
  draws : ℕ → ℚ
  pos : ℕ

/-- rng.normal(0, std) consumes one unit draw and scales it by std. -/
def Rng.normal (r : Rng) (std : ℚ) : ℚ × Rng :=
  (std * r.draws r.pos, ⟨r.draws, r.pos + 1⟩)

/-- Configuration record, with the field names of the cfg dict built in
src/app.py (gravity stores the positive magnitude, as in the dict). -/
structure SimCfg where
  max_time : ℚ
  mass : ℚ
  altitude : ℚ
  initial_velocity : ℚ
  fuel : ℚ
  thrust : ℚ
  gravity : ℚ
  wind_std : ℚ
  vel_noise : ℚ
  thrust_noise : ℚ
  target_descent : ℚ
  kp : ℚ
  min_throttle : ℚ
  max_throttle : ℚ
  safe_speed : ℚ
deriving DecidableEq

/-- Mutable state of the integration loop of simulate_one_with_trace. -/
structure SimState where
  time : ℚ
  altitude : ℚ
  velocity : ℚ
  fuel : ℚ
  trace : List TraceEntry
deriving DecidableEq

/-- The local variables of simulate_one_with_trace that stay fixed during
the loop, line for line from src/app.py lines 30 to 46; cap is the value
int(max_time / dt) + 10 of the trace-length guard on line 64, a
loop-invariant expression hoisted out of the loop. -/
structure LoopEnv where
  dt : ℚ
  max_time : ℚ
  mass : ℚ
  max_thrust : ℚ
  gravity : ℚ
  wind_std : ℚ
  vel_noise : ℚ
  thrust_rstd : ℚ
  target_vel : ℚ
  kp : ℚ
  min_thr : ℚ
  max_thr : ℚ
  throttle_ff : ℚ
  cap : ℤ

/-- Error message of the structural step budget; proved unreachable when the
loop is entered with its canonical budget. -/
def stepBudgetMsg : String := "unreachable: step budget exhausted"

/-- The loop body of simulate_one_with_trace (src/app.py lines 52 to 63),
a literal transcription: noisy velocity measurement, proportional throttle
command clipped to its bounds, multiplicative thrust noise clamped at zero,
wind acceleration, explicit Euler update, fuel burn and trace append. -/
def stepBody (e : LoopEnv) (st : SimState) (rng : Rng) : Except String (SimState × Rng) :=
  let (dv, rng1) := rng.normal e.vel_noise
  let measured_vel := st.velocity + dv
  let vel_error := e.target_vel - measured_vel
  let throttle := npClip (e.throttle_ff + e.kp * vel_error) e.min_thr e.max_thr
  let (dm, rng2) := rng1.normal e.thrust_rstd
  let thrust_mult := 1 + dm
  let thrust := max (throttle * e.max_thrust * thrust_mult) 0
  let (wind_acc, rng3) := rng2.normal e.wind_std
  (qdiv thrust e.mass).map (fun tq =>
    let accel := tq + e.gravity + wind_acc
    let velocity := st.velocity + accel * e.dt
    let altitude := st.altitude + velocity * e.dt
    let fuel := st.fuel - throttle * e.dt
    let time := st.time + e.dt
    let trace := st.trace ++ [(time, altitude, max fuel 0, velocity, throttle)]
    (⟨time, altitude, velocity, fuel, trace⟩, rng3))

/-- The while loop of simulate_one_with_trace (src/app.py lines 51 to 65),
one constructor case per remaining unit of step budget: while the guard
holds, run the body, then break once the trace outgrows cap. -/
def simLoopGo (e : LoopEnv) : ℕ → SimState → Rng → Except String (SimState × Rng)
  | 0, _, _ => .error stepBudgetMsg
  | b + 1, st, rng =>
    if st.altitude > 0 ∧ st.fuel > 0 ∧ st.time < e.max_time then
      (stepBody e st rng).bind (fun p =>
        if (p.1.trace.length : ℤ) > e.cap then .ok p else simLoopGo e b p.1 p.2)
    else .ok (st, rng)

/-- Step budget that is always sufficient: one more than the remaining room
under the trace-length cap. -/
def loopBudget (e : LoopEnv) (st : SimState) : ℕ :=
  (e.cap + 1 - st.trace.length).toNat + 1

/-- The loop, entered with its canonical budget. -/
def simLoop (e : LoopEnv) (st : SimState) (rng : Rng) : Except String (SimState × Rng) :=
  simLoopGo e (loopBudget e st) st rng

/-- Setup and loop of simulate_one_with_trace: read the configuration into
locals (gravity and the descent target are sign-flipped, the feed-forward
throttle is mass times gravity over max thrust, a checked division), build
the initial state with the initial trace entry, and run the loop. -/
def simLoopSt (cfg : SimCfg) (rng : Rng) : Except String (SimState × Rng) := do
  let throttle_ff ← qdiv (cfg.mass * cfg.gravity) cfg.thrust
  let cap : ℤ := pyInt (cfg.max_time / SIM_DT) + 10
  let e : LoopEnv :=
    ⟨SIM_DT, cfg.max_time, cfg.mass, cfg.thrust, -cfg.gravity, cfg.wind_std,
      cfg.vel_noise, cfg.thrust_noise, -cfg.target_descent, cfg.kp,
      cfg.min_throttle, cfg.max_throttle, throttle_ff, cap⟩
  let st0 : SimState :=
    ⟨0, cfg.altitude, cfg.initial_velocity, cfg.fuel,
      [(0, cfg.altitude, cfg.fuel, cfg.initial_velocity, 0)]⟩
  simLoop e st0 rng

/-- Terminal classification of src/app.py lines 67 to 79: landed iff the
final altitude is at most zero; a landed run is safe or too_fast by the
speed threshold, a non-landed run is out_of_fuel or time_limit by the fuel
level; the reported fuel is clamped at zero and the landing speed is
present only on landed runs. -/
def mkOutcomeTr (safe_speed : ℚ) (st : SimState) : OutcomeTr :=
  let reason : Reason :=
    if st.altitude ≤ 0 then
      (if |st.velocity| ≤ safe_speed then .safe else .too_fast)
    else
      (if st.fuel ≤ 0 then .out_of_fuel else .time_limit)
  { landed := decide (st.altitude ≤ 0)
    safe := decide (reason = .safe)
    landing_speed_mps := if st.altitude ≤ 0 then some |st.velocity| else none
    fuel_left_kg := max st.fuel 0
    time_s := st.time
    reason := reason
    trace := st.trace }

/-- simulate_one_with_trace of src/app.py: run the loop, then classify. -/
def simulate_one_with_trace (cfg : SimCfg) (rng : Rng) : Except String (OutcomeTr × Rng) :=
  (simLoopSt cfg rng).map (fun p => (mkOutcomeTr cfg.safe_speed p.1, p.2))

/-- simulate_one of src/app.py: same record with the trace entry popped. -/
def simulate_one (cfg : SimCfg) (rng : Rng) : Except String (Outcome × Rng) :=
  (simulate_one_with_trace cfg rng).map (fun p => (p.1.toOutcome, p.2))

/-- The list comprehension of run_monte_carlo: n sequential calls of
simulate_one threading one generator through all runs. -/
def runMonteCarloGo (cfg : SimCfg) : ℕ → Rng → Except String (List Outcome × Rng)
  | 0, rng => .ok ([], rng)
  | n + 1, rng =>
    (simulate_one cfg rng).bind (fun p =>
      (runMonteCarloGo cfg n p.2).bind (fun q => .ok (p.1 :: q.1, q.2)))

/-- run_monte_carlo of src/app.py: seed a fresh generator from the ambient
stream family g and collect n outcome records. -/
def run_monte_carlo (g : ℤ → ℕ → ℚ) (cfg : SimCfg) (n : ℕ) (seed : ℤ) :
    Except String (List Outcome) :=
  (runMonteCarloGo cfg n ⟨g seed, 0⟩).map Prod.fst

/-- Mean of a boolean pandas column. -/
def meanB (l : List Bool) : ℚ :=
  ((l.countP id : ℕ) : ℚ) / l.length

/-- Mean of a float pandas column (pandas yields NaN on an empty column;
every use below is guarded by the code against emptiness). -/
def meanQ (l : List ℚ) : ℚ :=
  l.sum / l.length

/-- Sum of squared deviations from the mean. -/
def sqDevSum (l : List ℚ) : ℚ :=
  (l.map (fun x => (x - meanQ l) ^ 2)).sum

/-- Bessel-corrected sample variance, the quantity under the square root of
the pandas std(ddof := 1) call; see the modelling note at the top. -/
def besselVar (l : List ℚ) : ℚ :=
  sqDevSum l / ((l.length : ℚ) - 1)

/-- Distinct values in first-appearance order. -/
def firstSeen (l : List Reason) : List Reason :=
  l.foldl (fun acc r => if r ∈ acc then acc else acc ++ [r]) []

/-- The pandas value_counts dict: counts of each reason, sorted by count
descending (stably, so ties keep first-appearance order). -/
def value_counts (l : List Reason) : List (Reason × ℕ) :=
  ((firstSeen l).map (fun r => (r, l.count r))).insertionSort (fun a b => b.2 ≤ a.2)

/-- Batch summary of summarize in src/app.py. Per the modelling note,
std_speed carries the Bessel-corrected sample variance (the quantity whose
square root the code reports). -/
structure Summary where
  runs : ℕ
  safe_rate : ℚ
  touchdown_rate : ℚ
  avg_speed : Option ℚ
  std_speed : ℚ
  avg_fuel_left : ℚ
  breakdown : List (Reason × ℕ)
  breakdown_pct : List (Reason × ℚ)
  dominant_reason : Option Reason
deriving DecidableEq

/-- summarize of src/app.py lines 90 to 106. The rates are computed first
(guarded by n); the unguarded selection df[df[landed]] then raises KeyError
on the empty frame that run_monte_carlo builds when n_runs = 0, because
pd.DataFrame of an empty list has no columns. For n at least 1 every column
exists. Landed rows coming from the simulator always carry a landing speed;
getD 0 is the placeholder for rows that do not. -/
def summarize (rows : List Outcome) : Except String Summary :=
  let n := rows.length
  let safe_rate : ℚ := if n ≠ 0 then meanB (rows.map (·.safe)) * 100 else 0
  let touch_rate : ℚ := if n ≠ 0 then meanB (rows.map (·.landed)) * 100 else 0
  if n = 0 then .error "KeyError: landed"
  else
    let landed_df := rows.filter (·.landed)
    let speeds := landed_df.map (fun r => r.landing_speed_mps.getD 0)
    let avg_speed : Option ℚ := if landed_df.length ≠ 0 then some (meanQ speeds) else none
    let std_speed : ℚ := if 1 < landed_df.length then besselVar speeds else 0
    let avg_fuel : ℚ := if n ≠ 0 then meanQ (rows.map (·.fuel_left_kg)) else 0
    let breakdown := value_counts (rows.map (·.reason))
    let breakdown_pct :=
      if n ≠ 0 then breakdown.map (fun kv => (kv.1, pyRound 2 ((kv.2 : ℚ) * 100 / n))) else []
    let dominant : Option Reason := breakdown.head?.map Prod.fst
    .ok { runs := n
          safe_rate := pyRound 2 safe_rate
          touchdown_rate := pyRound 2 touch_rate
          avg_speed := avg_speed.map (pyRound 3)
          std_speed := std_speed
          avg_fuel_left := pyRound 3 avg_fuel
          breakdown := breakdown
          breakdown_pct := breakdown_pct
          dominant_reason := dominant }

/-- Batch summary of summarize in src/web/app.py, whose std_speed is
None (not 0) on a batch with no landed run. -/
structure WSummary where
  runs : ℕ
  safe_rate : ℚ
  touchdown_rate : ℚ
  avg_speed : Option ℚ
  std_speed : Option ℚ
  avg_fuel_left : ℚ
  breakdown : List (Reason × ℕ)
  breakdown_pct : List (Reason × ℚ)
  dominant_reason : Option Reason
deriving DecidableEq

/-- summarize of src/web/app.py lines 136 to 164: identical to the main
variant except that with no landed run both avg_speed and std_speed are
None. The same unguarded df[df[landed]] raises KeyError on an empty
frame. -/
def webSummarize (rows : List Outcome) : Except String WSummary :=
  let n := rows.length
  let safe_rate : ℚ := if n ≠ 0 then meanB (rows.map (·.safe)) * 100 else 0
  let touch_rate : ℚ := if n ≠ 0 then meanB (rows.map (·.landed)) * 100 else 0
  if n = 0 then .error "KeyError: landed"
  else
    let landed_df := rows.filter (·.landed)
    let speeds := landed_df.map (fun r => r.landing_speed_mps.getD 0)
    let avg_speed : Option ℚ :=
      if landed_df.length ≠ 0 then some (meanQ speeds) else none
    let std_speed : Option ℚ :=
      if landed_df.length ≠ 0 then some (if 1 < landed_df.length then besselVar speeds else 0)
      else none
    let avg_fuel : ℚ := if n ≠ 0 then meanQ (rows.map (·.fuel_left_kg)) else 0
    let breakdown := value_counts (rows.map (·.reason))
    let breakdown_pct :=
      if n ≠ 0 then breakdown.map (fun kv => (kv.1, pyRound 2 ((kv.2 : ℚ) * 100 / n))) else []
    let dominant : Option Reason := breakdown.head?.map Prod.fst
    .ok { runs := n
          safe_rate := pyRound 2 safe_rate
          touchdown_rate := pyRound 2 touch_rate
          avg_speed := avg_speed.map (pyRound 3)
          std_speed := std_speed
          avg_fuel_left := pyRound 3 avg_fuel
          breakdown := breakdown
          breakdown_pct := breakdown_pct
          dominant_reason := dominant }

/-- Checked math.sqrt: raises ValueError on a negative argument, otherwise
evaluates the abstract square root parameter. -/
def qsqrt (sq : ℚ → ℚ) (x : ℚ) : Except String ℚ :=
  if x < 0 then .error "ValueError: math domain error" else .ok (sq x)

/-- The dict returned by compute_physics of src/app.py, field for field;
fields carry the display-rounded values exactly as the dict does. -/
structure Phys where
  F_hover : ℚ
  TWR : ℚ
  FF : ℚ
  a_brake_max : ℚ
  v_freefall : ℚ
  h_brake_emergency : Option ℚ
  sigma_wind : ℚ
  sigma_total : ℚ
  feasible : Bool
  marginal : Bool
  impossible : Bool
  v_target : ℚ
  kp : ℚ
  kp_wind_min : ℚ
  t_descent : ℚ
  tau : ℚ
  t_budget : ℤ
  fuel_needed : ℚ
  avg_throttle : ℚ
  v_target_cons : ℚ
  kp_cons : ℚ
  t_budget_cons : ℤ
  fuel_needed_cons : ℚ
  F_needed : ℚ
  a_req : ℚ
deriving DecidableEq

/-- compute_physics of src/app.py lines 110 to 176, a literal transcription.
The unguarded division F_max / m and the square root of 2 g h are checked
(they are the two operations the code lets raise); the sigma square roots
act on sums of squares, which are nonnegative, so math.sqrt cannot raise
there and the total parameter sq is applied directly; every other division
sits under an explicit positivity guard of the code. -/
def compute_physics (sq : ℚ → ℚ) (cfg : SimCfg) : Except String Phys := do
  let m := cfg.mass
  let g := cfg.gravity
  let h := cfg.altitude
  let F_max := cfg.thrust
  let v_safe := cfg.safe_speed
  let wind_std := cfg.wind_std
  let vel_noise := cfg.vel_noise
  let F_hover := m * g
  let TWR := if F_hover > 0 then F_max / F_hover else 0
  let abm ← qdiv F_max m
  let a_brake_max := abm - g
  let v_freefall ← qsqrt sq (2 * g * h)
  let h_brake_emergency : Option ℚ :=
    if a_brake_max > 0 then some ((v_freefall ^ 2 - v_safe ^ 2) / (2 * a_brake_max)) else none
  let FF := if TWR > 0 then min (1 / TWR) 1 else 1
  let sigma_wind := if a_brake_max > 0 then wind_std / a_brake_max else max (wind_std * 10) v_safe
  let sigma_total := sq (sigma_wind ^ 2 + vel_noise ^ 2)
  let v_target := max (v_safe - SIGMA_MARGIN * sigma_total) (5 / 100)
  let sigma_wind_c := if a_brake_max > 0 then 2 * wind_std / a_brake_max else sigma_wind * 2
  let sigma_total_c := sq (sigma_wind_c ^ 2 + vel_noise ^ 2)
  let v_target_cons := max (v_safe - SIGMA_MARGIN * sigma_total_c) (5 / 100)
  let kp_sat := min (1 - FF) FF / (SIGMA_MARGIN * max sigma_total (1 / 1000))
  let kp_wind_min := if F_max > 0 then wind_std * m / F_max else 1 / 1000
  let kp_ideal := if F_max > 0 ∧ h > 0 then 10 * m * v_target / (F_max * h) else 1 / 10
  let kp := pyRound 4 (max (max (min kp_ideal kp_sat) kp_wind_min) (1 / 1000))
  let kp_cons_ideal :=
    if F_max > 0 ∧ h > 0 then 10 * m * v_target_cons / (F_max * h) * (12 / 10) else 1 / 10
  let kp_cons_sat := min (1 - FF) FF / (SIGMA_MARGIN * max sigma_total_c (1 / 1000))
  let kp_cons := pyRound 4 (max (max (min kp_cons_ideal kp_cons_sat) kp_wind_min) (1 / 1000))
  let t_descent := h / v_target
  let t_descent_cons := h / v_target_cons
  let tau := if kp > 0 ∧ F_max > 0 then m / (kp * F_max) else t_descent
  let tau_cons := if kp_cons > 0 ∧ F_max > 0 then m / (kp_cons * F_max) else t_descent_cons
  let t_budget : ℤ := ⌈t_descent + 3 * tau + 5 * SIM_DT⌉
  let t_budget_cons : ℤ := ⌈t_descent_cons + 3 * tau_cons + 5 * SIM_DT⌉
  let correction_overhead := min (sigma_wind / max v_target (1 / 1000)) (1 / 2)
  let avg_throttle := if TWR > 0 then min (FF + correction_overhead * (1 - FF)) 1 else 1
  let avg_throttle_c :=
    if TWR > 0 then min (FF + correction_overhead * (3 / 2) * (1 - FF)) 1 else 1
  let fuel_needed := pyRound 1 (avg_throttle * t_budget)
  let fuel_needed_cons := pyRound 1 (avg_throttle_c * t_budget_cons)
  let a_req := if h > 0 then (v_freefall ^ 2 - v_safe ^ 2) / (2 * h) else 0
  let F_needed := pyRound 0 (max (m * (g + a_req)) F_hover)
  pure { F_hover := pyRound 2 F_hover
         TWR := pyRound 3 TWR
         FF := pyRound 4 FF
         a_brake_max := pyRound 4 a_brake_max
         v_freefall := pyRound 3 v_freefall
         h_brake_emergency := h_brake_emergency.map (pyRound 2)
         sigma_wind := pyRound 4 sigma_wind
         sigma_total := pyRound 4 sigma_total
         feasible := decide (TWR ≥ 1)
         marginal := decide (1 ≤ TWR ∧ TWR < 3 / 2)
         impossible := decide (TWR < 1)
         v_target := pyRound 3 v_target
         kp := kp
         kp_wind_min := pyRound 6 kp_wind_min
         t_descent := pyRound 1 t_descent
         tau := pyRound 2 tau
         t_budget := t_budget
         fuel_needed := fuel_needed
         avg_throttle := pyRound 4 avg_throttle
         v_target_cons := pyRound 3 v_target_cons
         kp_cons := kp_cons
         t_budget_cons := t_budget_cons
         fuel_needed_cons := fuel_needed_cons
         F_needed := F_needed
         a_req := pyRound 4 a_req }

/-- The nine suggestion branches of make_suggestions in src/app.py; the
human-facing title, action, change and why strings are display only and
elided, the numeric patches are kept exactly. -/
inductive SuggKind where
  | fixEverything
  | kpTooLow
  | tooFast
  | timeLimit
  | descentTooSlow
  | notBrakingEnough
  | overcorrecting
  | outOfFuel
  | enginesTooWeak
  | moreBrakingPower
deriving DecidableEq

/-- A configuration patch: the dict patched over cfg by apply_patch; only
these five keys ever occur in the patches of make_suggestions. -/
structure Patch where
  target_descent : Option ℚ
  kp : Option ℚ
  max_time : Option ℚ
  fuel : Option ℚ
  thrust : Option ℚ
deriving DecidableEq

/-- A suggestion: branch tag plus patch. -/
structure Sugg where
  kind : SuggKind
  patch : Patch
deriving DecidableEq

/-- apply_patch of src/app.py: deep copy of cfg with the patched keys
overwritten. -/
def apply_patch (cfg : SimCfg) (p : Patch) : SimCfg :=
  { cfg with
    target_descent := p.target_descent.getD cfg.target_descent
    kp := p.kp.getD cfg.kp
    max_time := p.max_time.getD cfg.max_time
    fuel := p.fuel.getD cfg.fuel
    thrust := p.thrust.getD cfg.thrust }

/-- make_suggestions of src/app.py lines 206 to 425: the always-present fix
everything candidate followed by the conditionally gated single-cause
candidates, in source order, with the nudge magnitudes and thresholds
transcribed literally. -/
def make_suggestions (sq : ℚ → ℚ) (cfg : SimCfg) (breakdown : List (Reason × ℕ))
    (base_rate : ℚ) : Except String (List Sugg) := do
  let p ← compute_physics sq cfg
  let cur_descent := cfg.target_descent
  let cur_kp := cfg.kp
  let cur_time := cfg.max_time
  let cur_fuel := cfg.fuel
  let cur_thrust := cfg.thrust
  let v_safe := cfg.safe_speed
  let kp_opt := p.kp
  let total : ℚ := ((max ((breakdown.map Prod.snd).sum) 1 : ℕ) : ℚ)
  let severity := 1 - base_rate / 100
  let nudge := 8 / 100 + 22 / 100 * severity
  let too_fast := (((breakdown.lookup Reason.too_fast).getD 0 : ℕ) : ℚ) / total
  let time_lim := (((breakdown.lookup Reason.time_limit).getD 0 : ℕ) : ℚ) / total
  let fuel_dry := (((breakdown.lookup Reason.out_of_fuel).getD 0 : ℕ) : ℚ) / total
  let new_fuel := max cur_fuel p.fuel_needed
  let l : List Sugg :=
    [⟨.fixEverything, ⟨some p.v_target, some p.kp, some (p.t_budget : ℚ), some new_fuel, none⟩⟩]
  let l := if cur_kp < kp_opt * (2 / 10) ∧ kp_opt > 0 then
      l ++ [⟨.kpTooLow, ⟨none, some kp_opt, none, none, none⟩⟩] else l
  let l := if too_fast > 1 / 10 ∨ cur_descent ≥ v_safe then
      l ++ [⟨.tooFast,
        ⟨some (pyRound 2 (max (cur_descent * (1 - nudge)) (1 / 10))), none, none, none, none⟩⟩]
    else l
  let l := if time_lim > 15 / 100 then
      l ++ [⟨.timeLimit,
        ⟨none, none, some ((⌈cur_time * (1 + nudge * (3 / 2))⌉ : ℤ) : ℚ), none, none⟩⟩]
    else l
  let new_d5 := pyRound 2 (max (cur_descent * (1 + nudge * (1 / 2))) (cur_descent + 1 / 10))
  let l := if (time_lim > 3 / 10 ∧ cur_descent < v_safe * (7 / 10)) ∧
      new_d5 > cur_descent + 1 / 20 then
      l ++ [⟨.descentTooSlow, ⟨some new_d5, none, none, none, none⟩⟩] else l
  let l := if too_fast > 3 / 10 ∧ cur_descent < v_safe ∧ cur_kp ≥ kp_opt * (2 / 10) then
      l ++ [⟨.notBrakingEnough,
        ⟨none, some (pyRound 4 (min (cur_kp * (1 + nudge)) (kp_opt * 6))), none, none, none⟩⟩]
    else l
  let l := if (time_lim > 3 / 10 ∨ fuel_dry > 3 / 10) ∧ cur_kp > kp_opt * 4 then
      l ++ [⟨.overcorrecting, ⟨none, some (pyRound 4 (cur_kp * (1 - nudge))), none, none, none⟩⟩]
    else l
  let l := if fuel_dry > 2 / 10 then
      l ++ [⟨.outOfFuel,
        ⟨none, none, none, some (pyRound 1 (cur_fuel * (1 + nudge * (3 / 2)))), none⟩⟩]
    else l
  let l := if p.feasible = false then
      l ++ [⟨.enginesTooWeak,
        ⟨none, none, none, none, some (pyRound 0 (cur_thrust * (1 + nudge * 2)))⟩⟩]
    else if too_fast > 4 / 10 ∧ p.TWR < 14 / 10 then
      l ++ [⟨.moreBrakingPower,
        ⟨none, none, none, none, some (pyRound 0 (cur_thrust * (1 + nudge)))⟩⟩]
    else l
  pure l

/-- A scored candidate of rank_suggestions: branch tag, patch, estimated
safe rate and delta over the baseline. -/
structure Scored where
  kind : SuggKind
  patch : Patch
  est_safe_rate : ℚ
  delta : ℚ
deriving DecidableEq

/-- Scoring of one candidate, the loop body of rank_suggestions lines 431
to 444: patch the configuration, run a quick Monte Carlo batch at seed plus
777, summarize, and record the safe-rate delta over the baseline. -/
def scoreSugg (g : ℤ → ℕ → ℚ) (cfg : SimCfg) (base_rate : ℚ) (seed : ℤ)
    (quick_runs : ℕ) (s : Sugg) : Except String Scored := do
  let cfg2 := apply_patch cfg s.patch
  let df ← run_monte_carlo g cfg2 quick_runs (seed + 777)
  let s3 ← summarize df
  pure ⟨s.kind, s.patch, s3.safe_rate, pyRound 2 (s3.safe_rate - base_rate)⟩

/-- Stable descending sort by delta (the Python sorted with key minus
delta). -/
def sortByDeltaDesc (l : List Scored) : List Scored :=
  l.insertionSort (fun a b => b.delta ≤ a.delta)

/-- The ranking stage of rank_suggestions in src/app.py lines 446 to 451:
positive-delta candidates sorted descending, then filled from the
non-positive ones, truncated to top_k. -/
def rankFromScored (scored : List Scored) (top_k : ℕ) : List Scored :=
  let positive := sortByDeltaDesc (scored.filter (fun x => 0 < x.delta))
  let zero_neg := sortByDeltaDesc (scored.filter (fun x => x.delta ≤ 0))
  let result := positive.take top_k
  let result :=
    if result.length < top_k then result ++ zero_neg.take (top_k - result.length) else result
  result.take top_k

/-- The ranking stage of rank_suggestions in src/web/app.py lines 238 to
240 (src/src/07_mission_console.py lines 209 to 215 is the same logic):
sort all scored candidates descending by delta, return the improved ones
truncated to top_k, falling back to the overall top_k only when no
candidate improves. -/
def webRankFromScored (scored : List Scored) (top_k : ℕ) : List Scored :=
  let sortedAll := sortByDeltaDesc scored
  let improved := sortedAll.filter (fun x => 0 < x.delta)
  if improved.isEmpty then sortedAll.take top_k else improved.take top_k

/-- rank_suggestions of src/app.py lines 428 to 451: generate, score each
candidate in order, then rank. -/
def rank_suggestions (sq : ℚ → ℚ) (g : ℤ → ℕ → ℚ) (cfg : SimCfg) (base_rate : ℚ)
    (breakdown : List (Reason × ℕ)) (seed : ℤ) (quick_runs : ℕ) (top_k : ℕ) :
    Except String (List Scored) := do
  let suggs ← make_suggestions sq cfg breakdown base_rate
  let scored ← suggs.mapM (scoreSugg g cfg base_rate seed quick_runs)
  pure (rankFromScored scored top_k)

/-- TWR as the specification words it: maximum thrust divided by mass times
gravity. -/
def twrSpec (cfg : SimCfg) : ℚ :=
  cfg.thrust / (cfg.mass * cfg.gravity)

/-! Concrete inputs used by the witness and counterexample theorems. -/

/-- The all-zero unit-draw stream family (every noise draw is zero). -/
def g0 : ℤ → ℕ → ℚ := fun _ _ => 0

/-- A square-root model that is identically zero; no claim depends on the
values of the square-root parameter. -/
def sq0 : ℚ → ℚ := fun _ => 0

/-- A generator seeded on the all-zero stream. -/
def rng0 : Rng := ⟨fun _ => 0, 0⟩

/-- A benign configuration whose descent starts on the ground (altitude 0),
so the loop exits at once and every run is a safe landing. -/
def cfgA : SimCfg :=
  ⟨1, 1, 0, 0, 1, 2, 1, 0, 0, 0, 1, 1, 0, 1, 2⟩

/-- A degenerate configuration with zero maximum thrust: the feed-forward
throttle of the simulator divides by it. -/
def cfgBad : SimCfg :=
  ⟨1, 1, 1, 0, 1, 0, 1, 0, 0, 0, 1, 1, 0, 1, 2⟩

/-- The loop state of cfgA after setup (also its final state). -/
def stA : SimState :=
  ⟨0, 0, 0, 1, [(0, 0, 1, 0, 0)]⟩

/-- The loop environment that simLoopSt builds from cfgA. -/
def envA : LoopEnv :=
  ⟨1 / 10, 1, 1, 2, -1, 0, 0, 0, -1, 1, 0, 1, 1 / 2, 20⟩

/-- The batch summary of one simulated run of cfgA. -/
def sC2 : Summary :=
  ⟨1, 100, 100, some 0, 0, 1, [(.safe, 1)], [(.safe, 100)], some .safe⟩

/-- A landed record with landing speed 1. -/
def rowL1 : Outcome := ⟨true, true, some 1, 0, 0, .safe⟩

/-- A landed record with landing speed 3. -/
def rowL3 : Outcome := ⟨true, true, some 3, 0, 0, .safe⟩

/-- A record of a run that never landed. -/
def rowNL : Outcome := ⟨false, false, none, 0, 0, .time_limit⟩

/-- A batch with two landed runs. -/
def rowsC3 : List Outcome := [rowL1, rowL3]

/-- The same batch extended by a non-landed run: the landed sublist is
unchanged. -/
def rowsC3b : List Outcome := [rowL1, rowL3, rowNL]

/-- Summary of rowsC3. -/
def sC3 : Summary :=
  ⟨2, 100, 100, some 2, 2, 0, [(.safe, 2)], [(.safe, 100)], some .safe⟩

/-- Summary of rowsC3b. -/
def sC3b : Summary :=
  ⟨3, 6667 / 100, 6667 / 100, some 2, 2, 0, [(.safe, 2), (.time_limit, 1)],
    [(.safe, 6667 / 100), (.time_limit, 3333 / 100)], some .safe⟩

/-- Web summary of rowsC3. -/
def wC3 : WSummary :=
  ⟨2, 100, 100, some 2, some 2, 0, [(.safe, 2)], [(.safe, 100)], some .safe⟩

/-- A scored candidate with positive delta. -/
def scPos : Scored := ⟨.fixEverything, ⟨none, none, none, none, none⟩, 1, 1⟩

/-- A scored candidate with negative delta. -/
def scNeg : Scored := ⟨.outOfFuel, ⟨none, none, none, none, none⟩, 0, -1⟩

/-! Helper lemmas. -/

/-- Round half to even stays within one half of its argument. -/
theorem rhe_bounds (x : ℚ) : x - 1 / 2 ≤ (rhe x : ℚ) ∧ (rhe x : ℚ) ≤ x + 1 / 2 := by
  unfold rhe
  split
  case isTrue htie =>
    have hx : x = (⌊x⌋ : ℚ) + 1 / 2 := by linarith
    split <;> push_cast <;> constructor <;> linarith
  case isFalse htie =>
    have h := abs_sub_round x
    rw [abs_le] at h
    constructor <;> linarith [h.1, h.2]

/-- Round half to even is monotone. -/
theorem rhe_mono {x y : ℚ} (h : x ≤ y) : rhe x ≤ rhe y := by
  by_contra hlt
  push_neg at hlt
  have hxb := rhe_bounds x
  have hyb := rhe_bounds y
  have hstep : (rhe y : ℚ) + 1 ≤ (rhe x : ℚ) := by
    exact_mod_cast Int.add_one_le_iff.mpr hlt
  have hyx : y ≤ x := by linarith [hxb.2, hyb.1]
  have hxy : x = y := le_antisymm h hyx
  subst hxy
  exact absurd rfl (ne_of_gt hlt)

/-- Python rounding at a fixed digit count is monotone. -/
theorem pyRound_mono (nd : ℕ) {x y : ℚ} (h : x ≤ y) : pyRound nd x ≤ pyRound nd y := by
  unfold pyRound
  have hpow : (0 : ℚ) ≤ 10 ^ nd := by positivity
  have hm : x * 10 ^ nd ≤ y * 10 ^ nd := by
    exact mul_le_mul_of_nonneg_right h hpow
  have hr : (rhe (x * 10 ^ nd) : ℚ) ≤ (rhe (y * 10 ^ nd) : ℚ) := by
    exact_mod_cast rhe_mono hm
  exact div_le_div_of_nonneg_right hr hpow

/-- Mapping over an Except that yields an error leaves the same error. -/
theorem except_map_error {α β : Type} {f : α → β} {x : Except String α} {msg : String}
    (h : x.map f = .error msg) : x = .error msg := by
  cases x <;> simp_all [Except.map]

/-- Mapping over an Except that yields a value comes from a value. -/
theorem except_map_ok {α β : Type} {f : α → β} {x : Except String α} {y : β}
    (h : x.map f = .ok y) : ∃ a, x = .ok a ∧ y = f a := by
  cases x <;> simp_all [Except.map]

/-- The only error qdiv raises. -/
theorem qdiv_error {a b : ℚ} {msg : String} (h : qdiv a b = .error msg) :
    msg = "ZeroDivisionError: float division by zero" := by
  unfold qdiv at h
  split at h
  · exact (Except.error.inj h).symm
  · exact absurd h (by simp)

/-- The only error the loop body can raise is the division by a zero mass. -/
theorem stepBody_error_msg {e : LoopEnv} {st : SimState} {rng : Rng} {msg : String}
    (h : stepBody e st rng = .error msg) :
    msg = "ZeroDivisionError: float division by zero" := by
  simp only [stepBody, Rng.normal] at h
  exact qdiv_error (except_map_error h)

/-- A successful body step grows the trace by exactly one entry. -/
theorem stepBody_ok_trace {e : LoopEnv} {st st2 : SimState} {rng rng2 : Rng}
    (h : stepBody e st rng = .ok (st2, rng2)) :
    st2.trace.length = st.trace.length + 1 := by
  simp only [stepBody, Rng.normal] at h
  obtain ⟨tq, _, hy⟩ := except_map_ok h
  have h2 := congrArg (fun p : SimState × Rng => p.1.trace.length) hy
  simpa using h2

/-- Reduction of bind on a value. -/
theorem except_bind_ok {α β : Type} (a : α) (f : α → Except String β) :
    (Except.ok a).bind f = f a := rfl

/-- Reduction of bind on an error. -/
theorem except_bind_error {α β : Type} (msg : String) (f : α → Except String β) :
    (Except.error msg : Except String α).bind f = .error msg := rfl

/-- Any two sufficient budgets run the loop to the same result: the loop
exits through its own guard or through the trace cap, never through the
budget. -/
theorem simLoopGo_budget_irrel (e : LoopEnv) :
    ∀ (b c : ℕ) (st : SimState) (rng : Rng), loopBudget e st ≤ b → loopBudget e st ≤ c →
      simLoopGo e b st rng = simLoopGo e c st rng := by
  intro b
  induction b with
  | zero =>
    intro c st rng hb _
    exact absurd hb (by simp [loopBudget])
  | succ b ih =>
    intro c st rng hb hc
    obtain ⟨c2, rfl⟩ : ∃ c2, c = c2 + 1 := by
      refine ⟨c - 1, ?_⟩
      have h1 : 1 ≤ loopBudget e st := by simp [loopBudget]
      omega
    simp only [simLoopGo]
    split
    next hguard =>
      rcases hs : stepBody e st rng with msg | ⟨st2, rng3⟩
      · rw [except_bind_error, except_bind_error]
      · rw [except_bind_ok, except_bind_ok]
        have hlen := stepBody_ok_trace hs
        split
        next hcap => rfl
        next hcap =>
          push_neg at hcap
          have hb2 : loopBudget e st2 ≤ b := by
            simp only [loopBudget, hlen] at hb ⊢
            push_cast at hcap
            rw [hlen] at hcap
            push_cast at hcap
            omega
          have hc2 : loopBudget e st2 ≤ c2 := by
            simp only [loopBudget, hlen] at hc ⊢
            rw [hlen] at hcap
            push_cast at hcap
            omega
          exact ih c2 st2 rng3 hb2 hc2
    next hguard => rfl

/-- With a sufficient budget the loop never reports budget exhaustion. -/
theorem simLoopGo_ne_exhaust (e : LoopEnv) :
    ∀ (b : ℕ) (st : SimState) (rng : Rng), loopBudget e st ≤ b →
      simLoopGo e b st rng ≠ .error stepBudgetMsg := by
  intro b
  induction b with
  | zero =>
    intro st rng hb
    exact absurd hb (by simp [loopBudget])
  | succ b ih =>
    intro st rng hb
    simp only [simLoopGo]
    split
    next hguard =>
      rcases hs : stepBody e st rng with msg | ⟨st2, rng3⟩
      · rw [except_bind_error]
        intro hcontra
        have hm : msg = stepBudgetMsg := Except.error.inj hcontra
        rw [stepBody_error_msg hs] at hm
        exact absurd hm (by decide)
      · rw [except_bind_ok]
        have hlen := stepBody_ok_trace hs
        split
        next hcap => simp
        next hcap =>
          push_neg at hcap
          refine ih st2 rng3 ?_
          simp only [loopBudget, hlen] at hb ⊢
          rw [hlen] at hcap
          push_cast at hcap
          omega
    next hguard => simp

/-- Whenever the loop returns a state, its trace length is bounded by the
trace cap plus one (or by the entry length plus one when the cap was
already exceeded at entry). -/
theorem simLoopGo_len_bound (e : LoopEnv) :
    ∀ (b : ℕ) (st : SimState) (rng : Rng) (st2 : SimState) (rng2 : Rng),
      simLoopGo e b st rng = .ok (st2, rng2) →
      (st2.trace.length : ℤ) ≤ max (e.cap + 1) ((st.trace.length : ℤ) + 1) := by
  intro b
  induction b with
  | zero =>
    intro st rng st2 rng2 h
    exact absurd h (by simp [simLoopGo])
  | succ b ih =>
    intro st rng st2 rng2 h
    simp only [simLoopGo] at h
    split at h
    next hguard =>
      rcases hs : stepBody e st rng with msg | ⟨stM, rngM⟩
      · rw [hs, except_bind_error] at h
        exact absurd h (by simp)
      · rw [hs, except_bind_ok] at h
        have hlenM : stM.trace.length = st.trace.length + 1 := stepBody_ok_trace hs
        split at h
        next hcap =>
          rw [Except.ok.injEq, Prod.mk.injEq] at h
          obtain ⟨hst, _⟩ := h
          subst hst
          push_cast [hlenM]
          omega
        next hcap =>
          push_neg at hcap
          have hrec := ih stM rngM st2 rng2 h
          rw [hlenM] at hrec hcap
          push_cast at hrec hcap
          omega
    next hguard =>
      rw [Except.ok.injEq, Prod.mk.injEq] at h
      obtain ⟨hst, _⟩ := h
      subst hst
      omega

/-- C6: for every loop environment with a positive time step and every
sufficient step budget, the loop result is budget independent (the loop
always exits through its own guard or its trace cap), budget exhaustion is
unreachable, and on a normal return the number of executed steps is bounded
by the trace cap: the final trace length is at most max (cap + 1)
(entry length + 1). Instantiated at the call site of simulate, whose cap is
int(max_time / dt) + 10 and whose initial trace has one entry, the final
trace length is at most max (int(max_time / dt) + 11) 2. -/
theorem c6_loop_terminates_under_cap (e : LoopEnv) (st : SimState) (rng : Rng) (b : ℕ)
    (hdt : 0 < e.dt) (hb : loopBudget e st ≤ b) :
    simLoopGo e b st rng = simLoop e st rng ∧
    simLoopGo e b st rng ≠ .error stepBudgetMsg ∧
    (∀ (st2 : SimState) (rng2 : Rng), simLoopGo e b st rng = .ok (st2, rng2) →
      (st2.trace.length : ℤ) ≤ max (e.cap + 1) ((st.trace.length : ℤ) + 1)) ∧
    (∀ (cfg : SimCfg) (rngA : Rng) (stF : SimState) (rngF : Rng),
      simLoopSt cfg rngA = .ok (stF, rngF) →
      (stF.trace.length : ℤ) ≤ max (pyInt (cfg.max_time / SIM_DT) + 10 + 1) 2) := by
  refine ⟨simLoopGo_budget_irrel e b (loopBudget e st) st rng hb (le_refl _),
    simLoopGo_ne_exhaust e b st rng hb,
    fun st2 rng2 h => simLoopGo_len_bound e b st rng st2 rng2 h, ?_⟩
  intro cfg rngA stF rngF h
  simp only [simLoopSt, bind, Except.bind] at h
  rcases hq : qdiv (cfg.mass * cfg.gravity) cfg.thrust with msg | tff
  · rw [hq] at h
    exact absurd h (by simp)
  · rw [hq] at h
    simp only [simLoop] at h
    have hbound := simLoopGo_len_bound _ _ _ _ _ _ h
    simpa using hbound

/-- C6 witness: the loop-termination theorem applied at the concrete
environment and state of cfgA, with budget 21. -/
theorem c6_loop_terminates_under_cap_witness :
    ((0 : ℚ) < envA.dt ∧ loopBudget envA stA ≤ 21) ∧
    simLoopGo envA 21 stA rng0 = simLoop envA stA rng0 :=
  ⟨⟨by norm_num [envA], by decide⟩,
    (c6_loop_terminates_under_cap envA stA rng0 21 (by norm_num [envA]) (by decide)).1⟩

/-! Claim theorems. -/

/-- C10: simulate_one returns exactly the record of simulate_one_with_trace
with the trace field removed; dropping the trace changes none of the
landed, safe, landing-speed, fuel, time or reason fields. -/
theorem c10_simulate_one_refines_trace :
    (∀ (cfg : SimCfg) (rng : Rng),
      simulate_one cfg rng =
        (simulate_one_with_trace cfg rng).map (fun p => (p.1.toOutcome, p.2))) ∧
    (∀ rt : OutcomeTr,
      rt.toOutcome.landed = rt.landed ∧
      rt.toOutcome.safe = rt.safe ∧
      rt.toOutcome.landing_speed_mps = rt.landing_speed_mps ∧
      rt.toOutcome.fuel_left_kg = rt.fuel_left_kg ∧
      rt.toOutcome.time_s = rt.time_s ∧
      rt.toOutcome.reason = rt.reason) :=
  ⟨fun _ _ => rfl, fun _ => ⟨rfl, rfl, rfl, rfl, rfl, rfl⟩⟩

/-- C5: two calls of the suggestion ranking with identical inputs (same
configuration, baseline safe rate, breakdown, seed, quick run count and
top_k, under the same ambient square-root and random-stream models) return
identical ranked lists, and in particular identical estimated safe rates
and deltas. -/
theorem c5_suggest_deterministic (sq : ℚ → ℚ) (g : ℤ → ℕ → ℚ) (cfg cfg2 : SimCfg)
    (br br2 : ℚ) (bd bd2 : List (Reason × ℕ)) (seed seed2 : ℤ) (qr qr2 tk tk2 : ℕ)
    (h1 : cfg = cfg2) (h2 : br = br2) (h3 : bd = bd2) (h4 : seed = seed2)
    (h5 : qr = qr2) (h6 : tk = tk2) :
    rank_suggestions sq g cfg br bd seed qr tk =
      rank_suggestions sq g cfg2 br2 bd2 seed2 qr2 tk2 ∧
    (rank_suggestions sq g cfg br bd seed qr tk).map
        (List.map (fun x => (x.est_safe_rate, x.delta))) =
      (rank_suggestions sq g cfg2 br2 bd2 seed2 qr2 tk2).map
        (List.map (fun x => (x.est_safe_rate, x.delta))) := by
  subst h1; subst h2; subst h3; subst h4; subst h5; subst h6
  exact ⟨rfl, rfl⟩

/-- C5 witness: the determinism theorem applied at a concrete input. -/
theorem c5_suggest_deterministic_witness :
    rank_suggestions sq0 g0 cfgA 0 [] 0 1 6 = rank_suggestions sq0 g0 cfgA 0 [] 0 1 6 :=
  (c5_suggest_deterministic sq0 g0 cfgA cfgA 0 0 [] [] 0 0 1 1 6 6
    rfl rfl rfl rfl rfl rfl).1

/-- C7: for every configuration, stream model and seed, running the batch
pipeline with n_runs = 0 does not return a zeroed summary: run_monte_carlo
builds an empty frame without columns and summarize raises KeyError on the
unguarded df[df[landed]] selection. -/
theorem c7_nruns_zero_raises (g : ℤ → ℕ → ℚ) (cfg : SimCfg) (seed : ℤ) :
    (run_monte_carlo g cfg 0 seed).bind summarize = .error "KeyError: landed" := rfl

/-- C9: under the configuration invariant (positive mass, gravity and
altitude) the physics estimator succeeds and classifies exactly as claimed:
feasible iff TWR is at least 1, marginal iff TWR lies in [1, 1.5),
impossible iff TWR is below 1, where TWR is max thrust over mass times
gravity. -/
theorem c9_feasibility_classification (sq : ℚ → ℚ) (cfg : SimCfg)
    (hm : 0 < cfg.mass) (hg : 0 < cfg.gravity) (hh : 0 < cfg.altitude) :
    (compute_physics sq cfg).map (·.feasible) = .ok (decide (1 ≤ twrSpec cfg)) ∧
    (compute_physics sq cfg).map (·.marginal) =
      .ok (decide (1 ≤ twrSpec cfg ∧ twrSpec cfg < 3 / 2)) ∧
    (compute_physics sq cfg).map (·.impossible) = .ok (decide (twrSpec cfg < 1)) := by
  have hm0 : cfg.mass ≠ 0 := ne_of_gt hm
  have hfh : cfg.mass * cfg.gravity > 0 := mul_pos hm hg
  have hsq : ¬(2 * cfg.gravity * cfg.altitude < 0) := by
    push_neg
    positivity
  have htwr :
      (if cfg.mass * cfg.gravity > 0 then cfg.thrust / (cfg.mass * cfg.gravity) else 0) =
        twrSpec cfg := by
    rw [if_pos hfh, twrSpec]
  simp only [compute_physics, qdiv, qsqrt, if_neg hm0, if_neg hsq, bind, Except.bind,
    Except.map, htwr, pure, Except.pure]
  exact ⟨trivial, trivial, trivial⟩

/-- C9 witness: the classification theorem applied to a concrete
configuration (cfgBad has positive mass, gravity and altitude and zero
thrust, hence TWR zero and the impossible flag). -/
theorem c9_feasibility_classification_witness :
    ((0 : ℚ) < cfgBad.mass ∧ (0 : ℚ) < cfgBad.gravity ∧ (0 : ℚ) < cfgBad.altitude) ∧
    (compute_physics sq0 cfgBad).map (·.impossible) = .ok (decide (twrSpec cfgBad < 1)) :=
  ⟨⟨by norm_num [cfgBad], by norm_num [cfgBad], by norm_num [cfgBad]⟩,
    (c9_feasibility_classification sq0 cfgBad (by norm_num [cfgBad])
      (by norm_num [cfgBad]) (by norm_num [cfgBad])).2.2⟩

/-- C1: whatever state the integration loop of simulate exits in, the
outcome record is classified in the fixed order of the code: altitude at
most zero means landed, and then safe or too_fast by the speed threshold;
otherwise out_of_fuel exactly when fuel is spent; otherwise time_limit.
The four conditions are mutually exclusive and exhaustive, so exactly one
reason is assigned, and safe holds exactly on reason safe. -/
theorem c1_outcome_classification (cfg : SimCfg) (rng : Rng) (st : SimState)
    (h : (simLoopSt cfg rng).map Prod.fst = .ok st) :
    (simulate_one_with_trace cfg rng).map Prod.fst = .ok (mkOutcomeTr cfg.safe_speed st) ∧
    ((mkOutcomeTr cfg.safe_speed st).landed = true ↔ st.altitude ≤ 0) ∧
    ((mkOutcomeTr cfg.safe_speed st).reason = .safe ↔
      st.altitude ≤ 0 ∧ |st.velocity| ≤ cfg.safe_speed) ∧
    ((mkOutcomeTr cfg.safe_speed st).reason = .too_fast ↔
      st.altitude ≤ 0 ∧ ¬ |st.velocity| ≤ cfg.safe_speed) ∧
    ((mkOutcomeTr cfg.safe_speed st).reason = .out_of_fuel ↔
      ¬ st.altitude ≤ 0 ∧ st.fuel ≤ 0) ∧
    ((mkOutcomeTr cfg.safe_speed st).reason = .time_limit ↔
      ¬ st.altitude ≤ 0 ∧ ¬ st.fuel ≤ 0) ∧
    ((mkOutcomeTr cfg.safe_speed st).safe = true ↔
      (mkOutcomeTr cfg.safe_speed st).reason = .safe) ∧
    (mkOutcomeTr cfg.safe_speed st).landing_speed_mps =
      (if st.altitude ≤ 0 then some |st.velocity| else none) := by
  constructor
  · cases hr : simLoopSt cfg rng with
    | error e => rw [hr] at h; exact absurd h (by simp [Except.map])
    | ok p =>
      rw [hr] at h
      simp only [Except.map] at h
      cases h
      simp [simulate_one_with_trace, hr, Except.map]
  · simp only [mkOutcomeTr]
    split <;> split <;> simp_all

/-- C1 witness: the classification theorem applied to the concrete run of
cfgA, whose loop exits immediately in state stA. -/
theorem c1_outcome_classification_witness :
    (simLoopSt cfgA rng0).map Prod.fst = .ok stA ∧
    (simulate_one_with_trace cfgA rng0).map Prod.fst = .ok (mkOutcomeTr cfgA.safe_speed stA) :=
  ⟨by decide, (c1_outcome_classification cfgA rng0 stA (by decide)).1⟩


/-- Records produced by simulate_one satisfy: a safe run landed. -/
theorem simulate_one_safe_implies_landed {cfg : SimCfg} {rng : Rng} {r : Outcome} {rng2 : Rng}
    (h : simulate_one cfg rng = .ok (r, rng2)) : r.safe = true → r.landed = true := by
  rcases hs : simLoopSt cfg rng with msg | ⟨st, rng3⟩
  · rw [simulate_one, simulate_one_with_trace, hs] at h
    exact absurd h (by simp [Except.map])
  · rw [simulate_one, simulate_one_with_trace, hs] at h
    simp only [Except.map] at h
    rw [Except.ok.injEq, Prod.mk.injEq] at h
    obtain ⟨hr, _⟩ := h
    subst hr
    simp only [mkOutcomeTr, OutcomeTr.toOutcome]
    intro hsafe
    rw [decide_eq_true_iff] at hsafe ⊢
    by_contra halt
    rw [if_neg halt] at hsafe
    split at hsafe <;> exact absurd hsafe (by simp)

/-- Every record in a Monte Carlo batch comes out of simulate_one, so a
safe record is landed. -/
theorem runMonteCarloGo_safe_implies_landed (cfg : SimCfg) :
    ∀ (n : ℕ) (rng : Rng) (rows : List Outcome) (rng2 : Rng),
      runMonteCarloGo cfg n rng = .ok (rows, rng2) →
      ∀ r ∈ rows, r.safe = true → r.landed = true := by
  intro n
  induction n with
  | zero =>
    intro rng rows rng2 h
    simp only [runMonteCarloGo] at h
    rw [Except.ok.injEq, Prod.mk.injEq] at h
    obtain ⟨hr, _⟩ := h
    subst hr
    intro r hmem
    exact absurd hmem (by simp)
  | succ n ih =>
    intro rng rows rng2 h
    simp only [runMonteCarloGo] at h
    rcases h1 : simulate_one cfg rng with msg | ⟨r0, rngA⟩
    · rw [h1, except_bind_error] at h
      exact absurd h (by simp)
    · rw [h1, except_bind_ok] at h
      rcases h2 : runMonteCarloGo cfg n rngA with msg | ⟨rest, rngB⟩
      · rw [h2, except_bind_error] at h
        exact absurd h (by simp)
      · rw [h2, except_bind_ok] at h
        rw [Except.ok.injEq, Prod.mk.injEq] at h
        obtain ⟨hr, _⟩ := h
        subst hr
        intro r hmem
        rcases List.mem_cons.mp hmem with hhead | htail
        · subst hhead
          exact simulate_one_safe_implies_landed h1
        · exact ih rngA rest rngB h2 r htail

/-- Safe implies landed for every record of a successful run_monte_carlo
batch. -/
theorem run_monte_carlo_safe_implies_landed {g : ℤ → ℕ → ℚ} {cfg : SimCfg} {n : ℕ}
    {seed : ℤ} {rows : List Outcome} (h : run_monte_carlo g cfg n seed = .ok rows) :
    ∀ r ∈ rows, r.safe = true → r.landed = true := by
  rw [run_monte_carlo] at h
  rcases hgo : runMonteCarloGo cfg n ⟨g seed, 0⟩ with msg | ⟨rows2, rng2⟩
  · rw [hgo] at h
    exact absurd h (by simp [Except.map])
  · rw [hgo] at h
    simp only [Except.map] at h
    rw [Except.ok.injEq] at h
    subst h
    exact runMonteCarloGo_safe_implies_landed cfg n _ rows2 rng2 hgo

/-- C2: the batch summary of any Monte Carlo batch produced by the
simulator (any run count, configuration, stream model and seed) has a safe
rate bounded by the touchdown rate: every safe run also landed, counting is
monotone, and the display rounding is monotone. -/
theorem c2_safe_rate_le_touchdown_rate (g : ℤ → ℕ → ℚ) (cfg : SimCfg) (n : ℕ) (seed : ℤ)
    (s : Summary) (h : (run_monte_carlo g cfg n seed).bind summarize = .ok s) :
    s.safe_rate ≤ s.touchdown_rate := by
  rcases hmc : run_monte_carlo g cfg n seed with msg | rows
  · rw [hmc, except_bind_error] at h
    exact absurd h (by simp)
  · rw [hmc, except_bind_ok] at h
    have hmem := run_monte_carlo_safe_implies_landed hmc
    rw [summarize] at h
    split at h
    · exact absurd h (by simp)
    next hne =>
      rw [Except.ok.injEq] at h
      subst h
      dsimp only
      apply pyRound_mono
      have hcount : (rows.map (·.safe)).countP id ≤ (rows.map (·.landed)).countP id := by
        rw [List.countP_map, List.countP_map]
        refine List.countP_mono_left ?_
        intro r hr hsafe
        simp only [Function.comp, id] at hsafe ⊢
        exact hmem r hr hsafe
      have hmean : meanB (rows.map (·.safe)) ≤ meanB (rows.map (·.landed)) := by
        rw [meanB, meanB, List.length_map, List.length_map]
        have hc : ((rows.map (·.safe)).countP id : ℚ) ≤ ((rows.map (·.landed)).countP id : ℚ) := by
          exact_mod_cast hcount
        exact div_le_div_of_nonneg_right hc (by positivity)
      exact mul_le_mul_of_nonneg_right hmean (by norm_num)

/-- C2 witness: one run of cfgA lands safely, and its summary sC2 has equal
safe and touchdown rates. -/
theorem c2_safe_rate_le_touchdown_rate_witness :
    (run_monte_carlo g0 cfgA 1 0).bind summarize = .ok sC2 ∧
    sC2.safe_rate ≤ sC2.touchdown_rate :=
  ⟨by with_unfolding_all rfl,
    c2_safe_rate_le_touchdown_rate g0 cfgA 1 0 sC2 (by with_unfolding_all rfl)⟩


/-- C3 (amended): landing-speed statistics depend only on the landed rows;
with no landed run the main summarize reports avg_speed None and std_speed
0 while the web variant reports both as None; the standard deviation is
Bessel corrected (squared deviations divided by n minus 1) and reported as
0 whenever fewer than two landed runs exist. Totality of the rational
fields is the NaN-freeness of the claim. -/
theorem c3_landing_speed_stats (rows rows2 : List Outcome) (s s2 : Summary) (w : WSummary)
    (hs : summarize rows = .ok s) (hs2 : summarize rows2 = .ok s2)
    (hw : webSummarize rows = .ok w) :
    (s.avg_speed =
      if (rows.filter (·.landed)).length ≠ 0 then
        some (pyRound 3 (meanQ ((rows.filter (·.landed)).map
          (fun r => r.landing_speed_mps.getD 0))))
      else none) ∧
    (s.std_speed =
      if 1 < (rows.filter (·.landed)).length then
        sqDevSum ((rows.filter (·.landed)).map (fun r => r.landing_speed_mps.getD 0)) /
          (((rows.filter (·.landed)).length : ℚ) - 1)
      else 0) ∧
    (w.avg_speed = s.avg_speed) ∧
    (w.std_speed = if (rows.filter (·.landed)).length = 0 then none else some s.std_speed) ∧
    (rows.filter (·.landed) = rows2.filter (·.landed) →
      s.avg_speed = s2.avg_speed ∧ s.std_speed = s2.std_speed) := by
  rw [summarize] at hs
  split at hs
  · exact absurd hs (by simp)
  next hne =>
    rw [Except.ok.injEq] at hs
    subst hs
    rw [summarize] at hs2
    split at hs2
    · exact absurd hs2 (by simp)
    next hne2 =>
      rw [Except.ok.injEq] at hs2
      subst hs2
      rw [webSummarize] at hw
      split at hw
      · exact absurd hw (by simp)
      next hne3 =>
        rw [Except.ok.injEq] at hw
        subst hw
        dsimp only
        refine ⟨?_, ?_, ?_, ?_, ?_⟩
        · by_cases hl : (rows.filter (·.landed)).length = 0
          · rw [if_neg (by simpa using hl), if_neg (by simpa using hl)]
            rfl
          · rw [if_pos hl, if_pos hl]
            rfl
        · by_cases hl : 1 < (rows.filter (·.landed)).length
          · rw [if_pos hl, if_pos hl, besselVar, sqDevSum, List.length_map]
          · rw [if_neg hl, if_neg hl]
        · rfl
        · by_cases hl : (rows.filter (·.landed)).length = 0
          · rw [if_pos hl, if_neg (by simpa using hl)]
          · rw [if_neg hl, if_pos (by simpa using hl)]
        · intro hfilter
          rw [hfilter]
          exact ⟨rfl, rfl⟩

/-- C3 counterexample: a batch with one run and zero landed runs makes the
web summarize report std_speed as None, not 0, refuting the claim as
stated for that cited variant. -/
theorem c3_landing_speed_stats_counterexample :
    (webSummarize [rowNL]).map (·.std_speed) = .ok none ∧
    (webSummarize [rowNL]).map (·.std_speed) ≠ .ok (some 0) ∧
    rowNL.landed = false := by
  have h1 : (webSummarize [rowNL]).map (·.std_speed) = .ok none := by
    with_unfolding_all rfl
  refine ⟨h1, ?_, rfl⟩
  rw [h1]
  simp

/-- C3 witness: the amended theorem applied to a concrete pair of batches
sharing the landed sublist. -/
theorem c3_landing_speed_stats_witness :
    (summarize rowsC3 = .ok sC3 ∧ summarize rowsC3b = .ok sC3b ∧
      webSummarize rowsC3 = .ok wC3) ∧
    (sC3.avg_speed = sC3b.avg_speed ∧ sC3.std_speed = sC3b.std_speed) :=
  ⟨⟨by with_unfolding_all rfl, by with_unfolding_all rfl, by with_unfolding_all rfl⟩,
    (c3_landing_speed_stats rowsC3 rowsC3b sC3 sC3b wC3 (by with_unfolding_all rfl)
      (by with_unfolding_all rfl) (by with_unfolding_all rfl)).2.2.2.2
      (by with_unfolding_all rfl)⟩


/-- The two delta filters partition a scored list. -/
theorem scored_filter_partition (scored : List Scored) :
    (scored.filter (fun x => 0 < x.delta)).length +
      (scored.filter (fun x => x.delta ≤ 0)).length = scored.length := by
  have h := (@List.length_eq_length_filter_add Scored scored
    (fun x => decide (0 < x.delta))).symm
  have hcongr : scored.filter (fun x => !decide (0 < x.delta)) =
      scored.filter (fun x => x.delta ≤ 0) := by
    refine List.filter_congr ?_
    intro x _
    by_cases hx : 0 < x.delta
    · simp [hx, not_le.mpr hx]
    · simp [hx, not_lt.mp hx]
  rw [hcongr] at h
  exact h

/-- Sorting by delta preserves length. -/
theorem sortByDeltaDesc_length (l : List Scored) :
    (sortByDeltaDesc l).length = l.length := by
  rw [sortByDeltaDesc]
  exact (List.perm_insertionSort _ l).length_eq

/-- C4 (amended): the ranking stage of src/app.py returns the positive
delta candidates sorted descending, filled from the non-positive ones
sorted descending, truncated to top_k, hence exactly min top_k total
elements; the web and console variant instead returns only the improved
candidates whenever at least one exists, so its length is min top_k
(number of positive candidates) in that case, and min top_k total only
when no candidate improves. -/
theorem c4_ranking_fill_and_length (scored : List Scored) (top_k : ℕ) :
    rankFromScored scored top_k =
      (sortByDeltaDesc (scored.filter (fun x => 0 < x.delta)) ++
        sortByDeltaDesc (scored.filter (fun x => x.delta ≤ 0))).take top_k ∧
    (rankFromScored scored top_k).length = min top_k scored.length ∧
    (webRankFromScored scored top_k).length =
      (if ((sortByDeltaDesc scored).filter (fun x => 0 < x.delta)).length = 0 then
        min top_k scored.length
      else min top_k ((sortByDeltaDesc scored).filter (fun x => 0 < x.delta)).length) := by
  have hpartition := scored_filter_partition scored
  have hmain : rankFromScored scored top_k =
      (sortByDeltaDesc (scored.filter (fun x => 0 < x.delta)) ++
        sortByDeltaDesc (scored.filter (fun x => x.delta ≤ 0))).take top_k := by
    simp only [rankFromScored]
    rw [List.take_append_eq_append_take]
    by_cases hk : top_k ≤ (sortByDeltaDesc (scored.filter (fun x => 0 < x.delta))).length
    · rw [Nat.sub_eq_zero_of_le hk, List.take_zero, List.append_nil,
        List.length_take, if_neg (by omega), List.take_take, Nat.min_self]
    · push_neg at hk
      rw [List.length_take, if_pos (by omega)]
      simp only [List.take_of_length_le (le_of_lt hk), List.length_take]
      rw [Nat.min_eq_right (le_of_lt hk)]
      apply List.take_of_length_le
      rw [List.length_append, List.length_take]
      omega
  refine ⟨hmain, ?_, ?_⟩
  · rw [hmain, List.length_take, List.length_append,
      sortByDeltaDesc_length, sortByDeltaDesc_length, hpartition]
  · simp only [webRankFromScored]
    by_cases hemp : ((sortByDeltaDesc scored).filter (fun x => 0 < x.delta)).isEmpty = true
    · rw [if_pos hemp, if_pos (List.isEmpty_iff_length_eq_zero.mp hemp),
        List.length_take, sortByDeltaDesc_length]
    · rw [if_neg hemp, if_neg (fun hc => hemp (List.isEmpty_iff_length_eq_zero.mpr hc)),
        List.length_take]

/-- C4 counterexample: with one improving and one worsening candidate and
top_k 2, the web and console ranking returns a single element although two
candidates exist, refuting, for those cited variants, that exactly top_k
elements are returned whenever enough candidates exist. -/
theorem c4_ranking_counterexample :
    webRankFromScored [scPos, scNeg] 2 = [scPos] ∧
    ([scPos, scNeg] : List Scored).length = 2 ∧
    (webRankFromScored [scPos, scNeg] 2).length ≠ 2 := by
  have h1 : webRankFromScored [scPos, scNeg] 2 = [scPos] := by
    with_unfolding_all rfl
  refine ⟨h1, rfl, ?_⟩
  rw [h1]
  simp


/-- If mapping a fallible function over a list succeeds, it succeeded on
every element. -/
theorem mapM_ok_forall {α β : Type} (f : α → Except String β) :
    ∀ (l : List α) (res : List β), l.mapM f = .ok res → ∀ a ∈ l, (f a).isOk = true := by
  intro l
  induction l with
  | nil =>
    intro res _ a hmem
    exact absurd hmem (by simp)
  | cons x xs ih =>
    intro res h a hmem
    rw [List.mapM_cons] at h
    rcases hx : f x with msg | b
    · rw [hx] at h
      exact absurd h (by simp [bind, Except.bind])
    · rw [hx] at h
      rcases hxs : xs.mapM f with msg | rest
      · rw [hxs] at h
        exact absurd h (by simp [bind, Except.bind])
      · rcases List.mem_cons.mp hmem with hhead | htail
        · subst hhead
          rw [hx]
          rfl
        · exact ih rest hxs a htail

/-- C8 (amended): rank_suggestions has no skip path: it returns a ranking
only when every generated candidate scored without raising, so an error in
any candidate evaluation propagates and aborts the whole ranking pass. -/
theorem c8_candidate_error_propagates (sq : ℚ → ℚ) (g : ℤ → ℕ → ℚ) (cfg : SimCfg)
    (br : ℚ) (bd : List (Reason × ℕ)) (seed : ℤ) (qr tk : ℕ)
    (hok : (rank_suggestions sq g cfg br bd seed qr tk).isOk = true) :
    ∀ suggs, make_suggestions sq cfg bd br = .ok suggs →
      ∀ s ∈ suggs, (scoreSugg g cfg br seed qr s).isOk = true := by
  intro suggs hmk s hmem
  rw [rank_suggestions] at hok
  rw [hmk] at hok
  simp only [bind, Except.bind] at hok
  rcases hsc : suggs.mapM (scoreSugg g cfg br seed qr) with msg | scored
  · rw [hsc] at hok
    exact absurd hok (by simp [Except.isOk, Except.toBool])
  · exact mapM_ok_forall (scoreSugg g cfg br seed qr) suggs scored hsc s hmem

/-- C8 witness: for a benign configuration every candidate scores, the
ranking succeeds, and the theorem yields that each generated candidate
evaluated without error. -/
theorem c8_candidate_error_propagates_witness :
    (rank_suggestions sq0 g0 cfgA 0 [] 0 1 6).isOk = true ∧
    (∀ suggs, make_suggestions sq0 cfgA [] 0 = .ok suggs →
      ∀ s ∈ suggs, (scoreSugg g0 cfgA 0 0 1 s).isOk = true) :=
  ⟨by with_unfolding_all rfl,
    c8_candidate_error_propagates sq0 g0 cfgA 0 [] 0 1 6 (by with_unfolding_all rfl)⟩

/-- C8 counterexample: with a zero-thrust configuration, scoring the first
candidate divides by zero inside the simulator and rank_suggestions raises
instead of skipping the candidate: no ranking list is returned. -/
theorem c8_candidate_error_propagates_counterexample :
    rank_suggestions sq0 g0 cfgBad 0 [] 0 1 6 =
      .error "ZeroDivisionError: float division by zero" := by
  with_unfolding_all rfl

end Lander
